import Mathlib

/-!
Verification of the pyduino core passes (`src/symbol_pass.py`, `src/generate_pass.py`)
against their natural-language specification.

The two passes are shallowly embedded below.  Python strings are Lean `String`s;
the Python string primitives the source uses (`split`, `in`, `startswith`,
`rstrip`, `splitlines`, slicing) are modelled over `String.data` by the
executable helpers of this section.  Python `dict` and `set` are modelled as
association lists / duplicate-free lists with explicit lookup and insert
functions.  Exceptions are modelled with `Except String`; a bare Python
`assert` failure is modelled as the error "AssertionError" (an
`AssertionError` raised without arguments carries no text).  Source-position
decoration of error messages (the `exception_message` prefix quoting the
offending source excerpt) is abstracted away: errors carry the human-readable
explanation text only, since no verified property depends on the excerpt.
-/

namespace PyDuino

/-- Python `pat in s` (substring occurrence test) over char lists:
`chStarts pat s` is true when `pat` is a prefix of `s`. -/
def chStarts : List Char → List Char → Bool
  | [], _ => true
  | _ :: _, [] => false
  | a :: as, b :: bs => if a = b then chStarts as bs else false

/-- Python `pat in s` for a string `pat`: scan left to right for a prefix match. -/
def chOccurs (pat : List Char) : List Char → Bool
  | [] => chStarts pat []
  | c :: rest => if chStarts pat (c :: rest) then true else chOccurs pat rest

/-- Python `sep in s` lifted to `String`. -/
def strContains (pat s : String) : Bool := chOccurs pat.data s.data

/-- Python `s.split(sep)` for a one-character separator `sep = h`. -/
def chSplit1 (h : Char) : List Char → List (List Char)
  | [] => [[]]
  | c :: rest =>
    if c = h then [] :: chSplit1 h rest
    else
      match chSplit1 h rest with
      | [] => [[c]]
      | p :: ps => (c :: p) :: ps

/-- Python `s.split(sep)` for a two-character separator `sep = [a, b]`,
scanning left to right over non-overlapping occurrences. -/
def chSplit2 (a b : Char) : List Char → List (List Char)
  | [] => [[]]
  | [c] => [[c]]
  | c :: d :: rest =>
    if c = a ∧ d = b then [] :: chSplit2 a b rest
    else
      match chSplit2 a b (d :: rest) with
      | [] => [[c]]
      | p :: ps => (c :: p) :: ps

/-- Python `s.split(":")` lifted to `String`. -/
def splitColon (s : String) : List String := (chSplit1 ':' s.data).map String.mk

/-- Python `s.split("::")` lifted to `String`. -/
def splitColon2 (s : String) : List String := (chSplit2 ':' ':' s.data).map String.mk

/-- Membership of a character in a char list (Python `c in s`). -/
def chHasChar (c : Char) : List Char → Bool
  | [] => false
  | a :: as => if a = c then true else chHasChar c as

/-- Python `c in s` for a one-character pattern, lifted to `String`. -/
def hasChar (c : Char) (s : String) : Bool := chHasChar c s.data

/-- Python `s.startswith(p)` lifted to `String`. -/
def strStarts (p s : String) : Bool := chStarts p.data s.data

/-- The whitespace characters Python's bare `str.rstrip()` removes
(the ones that can occur in the generator's output). -/
def pyWhitespace : List Char := [' ', '\t', '\n', '\r']

/-- Python `s.rstrip(chars)`: drop trailing characters drawn from `strip`. -/
def chRStrip (strip : List Char) (s : List Char) : List Char :=
  (s.reverse.dropWhile (fun c => chHasChar c strip)).reverse

/-- Python `s.rstrip()` (whitespace) lifted to `String`. -/
def rstripWS (s : String) : String := String.mk (chRStrip pyWhitespace s.data)

/-- Python `s.rstrip("\n")` lifted to `String`. -/
def rstripNL (s : String) : String := String.mk (chRStrip ['\n'] s.data)

/-- Python `s[-1]` as used in the source's `s[-1] == "\n"` tests (guarded by
a non-emptiness check there): the last character, if any. -/
def lastCharQ (s : String) : Option Char := s.data.reverse.head?

/-- Python `s.splitlines()` for strings whose only line break is `"\n"`:
split on newlines; a trailing newline produces no trailing empty line. -/
def splitLines (s : String) : List String :=
  if s.data = [] then []
  else
    let parts := chSplit1 '\n' s.data
    let parts := if lastCharQ s = some '\n' then parts.dropLast else parts
    parts.map String.mk

/-- Python `s[1:-1]` (drop the first and the last character). -/
def slice1m1 (s : String) : String := String.mk ((s.data.drop 1).dropLast)

/-- Python string `<` by code points, over char lists. -/
def chLt : List Char → List Char → Bool
  | [], [] => false
  | [], _ :: _ => true
  | _ :: _, [] => false
  | a :: as, b :: bs => if a = b then chLt as bs else decide (a < b)

/-- Python string `<=` by code points, over char lists. -/
def chLe : List Char → List Char → Bool
  | [], _ => true
  | _ :: _, [] => false
  | a :: as, b :: bs => if a = b then chLe as bs else decide (a < b)

/-- The ordering Python's `sorted` uses on strings (lexicographic by code
point), as a binary relation on `String`. -/
def pyStrLe (a b : String) : Prop := chLe a.data b.data = true

instance : DecidableRel pyStrLe := fun a b => by
  unfold pyStrLe; infer_instance

/-- Python `sorted(...)` on a list of strings. The source sorts a `set`, so
the input has no duplicate elements and any correct sort yields the same
list; insertion sort by the code-point order models it. -/
def pySorted (l : List String) : List String := List.insertionSort pyStrLe l

/-- Python dict lookup `m.get(k)` / `k in m` over an association list. -/
def dictGet (m : List (String × String)) (k : String) : Option String :=
  match m with
  | [] => none
  | (k', v) :: rest => if k' = k then some v else dictGet rest k

/-- Python dict store `m[k] = v` over an association list. -/
def dictSet (m : List (String × String)) (k v : String) : List (String × String) :=
  match m with
  | [] => [(k, v)]
  | (k', v') :: rest => if k' = k then (k, v) :: rest else (k', v') :: dictSet rest k v

/-- Python `k in m` for a dict. -/
def dictHas (m : List (String × String)) (k : String) : Bool := (dictGet m k).isSome

/-- Membership in a list of strings (Python `x in s` for a set of strings). -/
def strListHas (l : List String) (x : String) : Bool :=
  match l with
  | [] => false
  | a :: as => if a = x then true else strListHas as x

/-- Python `set.add`: sets are modelled as duplicate-free lists in insertion
order (the order is erased by `sorted` wherever the source iterates them). -/
def setAdd (s : List String) (x : String) : List String :=
  if strListHas s x then s else s ++ [x]

/-- Lookup of a scope's symbol set (Python `self.symbols.get(scope, set())`). -/
def scopeGet (m : List (String × List String)) (k : String) : List String :=
  match m with
  | [] => []
  | (k', v) :: rest => if k' = k then v else scopeGet rest k

/-- Store of a scope's symbol set (Python `self.symbols[scope] = ...`). -/
def scopeSet (m : List (String × List String)) (k : String) (v : List String) :
    List (String × List String) :=
  match m with
  | [] => [(k, v)]
  | (k', v') :: rest => if k' = k then (k, v) :: rest else (k', v') :: scopeSet rest k v

/-! The abstract syntax tree.  The embedding covers the statically-typeable
sublanguage both passes give explicit handlers for: constants, names, unary
and binary operators, list/tuple literals; plain and annotated assignments
to name targets, `return`, `global`, bare expression statements, and
single-level function definitions.  Literal values record what the passes
inspect: `ast.Constant` value kinds (`int`, `bool`, `float`, `str`); float
values carry their source rendering, since neither pass computes on them. -/

inductive UnaryKind
  | uAdd
  | uSub
  | uNot
deriving DecidableEq

inductive BinKind
  | add
  | sub
  | mult
  | div
deriving DecidableEq

inductive PyConst
  | int (n : Int)
  | boolean (b : Bool)
  | float (repr : String)
  | str (s : String)
deriving DecidableEq

inductive PyExpr
  | constant (v : PyConst)
  | name (id : String)
  | unaryOp (op : UnaryKind) (operand : PyExpr)
  | binOp (left : PyExpr) (op : BinKind) (right : PyExpr)
  | listLit (elts : List PyExpr)
  | tupleLit (elts : List PyExpr)

/-- Function parameter: `ast.arg` with an optional annotated type name. -/
structure PyArg where
  arg : String
  annot : Option String
deriving DecidableEq

inductive PyStmt
  | assign (targets : List String) (value : PyExpr)
  | annAssign (target : String) (annot : String) (value : PyExpr)
  | ret (value : Option PyExpr)
  | functionDef (name : String) (args : List PyArg) (body : List PyStmt)
      (returns : Option String)
  | globalDecl (names : List String)
  | exprStmt (value : PyExpr)

/-- Symbol table built by the resolution pass and read by the generation
pass: `symbols` maps a scope to the set of scoped symbol names declared in
it, `types` maps a scoped symbol name to its type descriptor
(symbol_pass.py lines 12-15).  `argSyms` — modelled from the spec: the
generator calls `find_local_syms(scope, include_function_args=False)`, a
signature the `SymbolPass` under src/ does not have; per spec section 4.3
declaration emission may exclude function parameters (declared inline in
the parameter list), so the resolver additionally records which scoped
symbols are function parameters. -/
structure SymTable where
  symbols : List (String × List String)
  types : List (String × String)
  argSyms : List String
deriving DecidableEq

/-- State of a pass: the table under construction (or consultation) plus the
scope tracker's current scope — the spec's single-depth scope stack
(section 4.1) collapses to one field: `""` at global level, the function
name inside a function body. -/
structure SymSt where
  tbl : SymTable
  scope : String
deriving DecidableEq

/-- Modelled from the spec: `ScopeTracker.scoped_sym` (scope_tracker.py is
not under src/).  Spec section 3: a scoped name renders as
`scope + "::" + bare_name` for a non-global scope and as the bare name at
global scope.  The qualification is idempotent on already-qualified names:
`SymbolPass.add_scoped_symbol_type` and `visit_Assign` re-apply
`scoped_sym` to names that are already qualified, and the spec's end-to-end
scenario 1 (annotated parameters inside a function resolve and generate)
only holds if re-qualification leaves such names unchanged. -/
def scoped_sym (scope bare : String) : String :=
  if scope = "" then bare
  else if strContains "::" bare then bare
  else scope ++ "::" ++ bare

/-- SymbolPass.unscoped_sym (symbol_pass.py lines 160-166): strip the scope
qualifier by splitting on `"::"` and keeping the last part. -/
def unscoped_sym (symbol : String) : String :=
  if strContains "::" symbol then (splitColon2 symbol).getLastD ""
  else symbol

/-- SymbolPass.find_type (symbol_pass.py lines 136-144): direct lookup of
the scoped symbol, then fallback to its unqualified name. -/
def find_type (types : List (String × String)) (symbol : String) :
    Except String String :=
  match dictGet types symbol with
  | some t => .ok t
  | none =>
    match dictGet types (unscoped_sym symbol) with
    | some t => .ok t
    | none => .error ("Trying to find type for " ++ symbol ++ " but it cannot be found.")

/-- SymbolPass.find_ret_type (symbol_pass.py lines 146-158). -/
def find_ret_type (types : List (String × String)) (scopedFuncName : String) :
    Except String String :=
  match find_type types scopedFuncName with
  | .error m => .error m
  | .ok stored =>
    if stored = "func" then .ok "void"
    else if strContains ":" stored then
      let parts := splitColon stored
      if parts.length = 2 then
        if parts.headD "" = "func" then .ok (parts.getD 1 "")
        else .error "AssertionError"
      else .error "AssertionError"
    else .error ("Internal error trying to find ret type for " ++ scopedFuncName)

/-- SymbolPass.find_local_syms (symbol_pass.py lines 132-134): the scope's
symbols whose name starts with the scope qualifier. -/
def find_local_syms (tbl : SymTable) (scope : String) : List String :=
  (scopeGet tbl.symbols scope).filter (fun x => strStarts scope x)

/-- Modelled from the spec: the generator's
`find_local_syms(scope, include_function_args=False)` call (the
`SymbolPass` under src/ has no such parameter); spec section 4.3 excludes
function parameters from scope-local declaration emission. -/
def find_local_syms_noargs (tbl : SymTable) (scope : String) : List String :=
  (find_local_syms tbl scope).filter (fun x => !(strListHas tbl.argSyms x))

mutual

/-- SymbolPass.get_type_from_value (symbol_pass.py lines 29-77).  Python's
`isinstance(value, int)` is true for `bool` values, so both integers and
booleans take the `int` branch. -/
def get_type_from_value (st : SymSt) : PyExpr → Except String String
  | .constant v =>
    match v with
    | .int _ => .ok "int"
    | .boolean _ => .ok "int"
    | .str _ => .error "Strings not yet supported"
    | .float _ => .ok "float"
  | .unaryOp op e =>
    if op = .uSub ∨ op = .uAdd then get_type_from_value st e
    else .error "Only +/- unary operators supported."
  | .name id => find_type st.tbl.types (scoped_sym st.scope id)
  | .binOp l _ r =>
    match get_type_from_value st l with
    | .error m => .error m
    | .ok lt =>
      match get_type_from_value st r with
      | .error m => .error m
      | .ok rt =>
        if lt ≠ rt then .error "We do not support different types on binary operators."
        else .ok lt
  | .listLit elts => list_case st elts
  | .tupleLit elts => list_case st elts
termination_by e => 3 * sizeOf e

/-- The `ast.List`/`ast.Tuple` branch of `get_type_from_value`
(symbol_pass.py lines 56-71): fail on an empty literal, infer the first
element's type, demand every element (the first one included, re-inferred
as the source's `all(...)` does) infers to it. -/
def list_case (st : SymSt) (elts : List PyExpr) : Except String String :=
  match _h : elts with
  | [] => .error "We are unable to handle empty lists, yet"
  | e0 :: _ =>
    match get_type_from_value st e0 with
    | .error m => .error m
    | .ok el0Type =>
      match all_same_type st el0Type elts with
      | .error m => .error m
      | .ok true => .ok ("list:" ++ toString elts.length ++ ":" ++ el0Type)
      | .ok false => .error "Only homogeneous lists and tuples are supported."
termination_by 3 * sizeOf elts + 2

/-- Python `all([get_type_from_value(x) == el0_type for x in elts])`:
re-infer each element left to right, propagating the first inference
error, and report whether all inferred types match `t0`. -/
def all_same_type (st : SymSt) (t0 : String) : List PyExpr → Except String Bool
  | [] => .ok true
  | e :: rest =>
    match get_type_from_value st e with
    | .error m => .error m
    | .ok t => if t = t0 then all_same_type st t0 rest else .ok false
termination_by l => 3 * sizeOf l + 1

end

/-- SymbolPass.add_symbol_to_scope (symbol_pass.py lines 79-86) at the
current scope. -/
def add_symbol_to_scope (st : SymSt) (symbol : String) : SymSt :=
  { st with
    tbl := { st.tbl with
      symbols := scopeSet st.tbl.symbols st.scope
        (setAdd (scopeGet st.tbl.symbols st.scope) symbol) } }

/-- SymbolPass.is_known_in_scope at the current scope; `is_known_global`
(symbol_pass.py lines 88-96) is the same check, since it passes
`self.current_scope()` as the scope. -/
def is_known_global (st : SymSt) (symbol : String) : Bool :=
  strListHas (scopeGet st.tbl.symbols st.scope) symbol

/-- SymbolPass.add_scoped_symbol_type (symbol_pass.py lines 98-105).  Note
that it re-applies `scoped_sym` to its argument, which every caller has
already qualified. -/
def add_scoped_symbol_type (st : SymSt) (sName sType : String) :
    Except String SymSt :=
  let sc := scoped_sym st.scope sName
  if dictHas st.tbl.types sc then
    .error ("Symbol " ++ sName ++ " already has a type associated with it,")
  else .ok { st with tbl := { st.tbl with types := dictSet st.tbl.types sc sType } }

/-- SymbolPass.set_func_ret_type (symbol_pass.py lines 107-110); the two
`assert` statements are modelled as AssertionError failures. -/
def set_func_ret_type (st : SymSt) (symbol newType : String) :
    Except String SymSt :=
  match dictGet st.tbl.types symbol with
  | none => .error "AssertionError"
  | some t =>
    if t = "func" then
      .ok { st with tbl := { st.tbl with
        types := dictSet st.tbl.types symbol ("func:" ++ newType) } }
    else .error "AssertionError"

/-- Record a scoped symbol as a function parameter.  Modelled from the
spec (see `SymTable.argSyms`): the resolver variant the generator is
written against tracks parameters so declaration emission can skip them. -/
def record_arg_sym (st : SymSt) (scopedName : String) : SymSt :=
  { st with tbl := { st.tbl with argSyms := setAdd st.tbl.argSyms scopedName } }

/-- SymbolPass.handle_annotated_variable (symbol_pass.py lines 112-130).
The redeclaration check tests the bare name against the scope's symbol
set (which holds qualified names inside a function), exactly as the
source does. -/
def handle_annotated_variable (st : SymSt) (varName varType : String) :
    Except String SymSt :=
  let scopedTarget := scoped_sym st.scope varName
  let knownType := (dictGet st.tbl.types scopedTarget).getD varType
  if knownType ≠ varType then
    .error ("Variable " ++ varName ++ " annotated as being of type " ++ varType ++
      " but it is already known as being of type " ++ knownType)
  else if is_known_global st varName then
    .error ("Variable " ++ varName ++ " is already known in scope " ++ st.scope)
  else
    add_scoped_symbol_type (add_symbol_to_scope st scopedTarget) scopedTarget varType

/-- SymbolPass.visit_Global (symbol_pass.py lines 168-172): add the bare
names to the current scope's symbol set. -/
def visit_Global (st : SymSt) (names : List String) : SymSt :=
  { st with
    tbl := { st.tbl with
      symbols := scopeSet st.tbl.symbols st.scope
        (names.foldl setAdd (scopeGet st.tbl.symbols st.scope)) } }

/-- SymbolPass.visit_Assign (symbol_pass.py lines 178-193), one loop
iteration per target: infer the value type, resolve the target to its
scoped name (the bare name when `global`-declared in this scope), record
a first-seen symbol, and check the recorded type via the bare
`assert known_type == tgt_ty`. -/
def visit_Assign (st : SymSt) (value : PyExpr) : List String → Except String SymSt
  | [] => .ok st
  | tgt :: rest =>
    match get_type_from_value st value with
    | .error m => .error m
    | .ok tgtTy =>
      let scopedTarget := if is_known_global st tgt then tgt else scoped_sym st.scope tgt
      let next : Except String SymSt :=
        if dictHas st.tbl.types scopedTarget then .ok st
        else
          match add_scoped_symbol_type st scopedTarget tgtTy with
          | .error m => .error m
          | .ok st1 => .ok (add_symbol_to_scope st1 scopedTarget)
      match next with
      | .error m => .error m
      | .ok st2 =>
        match dictGet st2.tbl.types scopedTarget with
        | none => .error "KeyError"
        | some knownType =>
          if knownType = tgtTy then visit_Assign st2 value rest
          else .error "AssertionError"

/-- SymbolPass.visit_Return (symbol_pass.py lines 210-226). -/
def visit_Return (st : SymSt) (value : Option PyExpr) : Except String SymSt :=
  let inferred : Except String String :=
    match value with
    | none => .ok "void"
    | some e => get_type_from_value st e
  match inferred with
  | .error m => .error m
  | .ok typeOfThisReturn =>
    match find_type st.tbl.types st.scope with
    | .error m => .error m
    | .ok knownType =>
      if knownType = "func" then set_func_ret_type st st.scope typeOfThisReturn
      else if ("func:" ++ typeOfThisReturn) ≠ knownType then
        let parts := splitColon knownType
        if 2 ≤ parts.length then
          .error ("Function should return '" ++ parts.getD 1 "" ++
            "' but this return statement is of type '" ++ typeOfThisReturn ++ "'")
        else .error "IndexError"
      else .ok st

/-- SymbolPass.visit_arg (symbol_pass.py lines 228-234); additionally
records the parameter for `find_local_syms_noargs` (see
`SymTable.argSyms`). -/
def visit_arg (st : SymSt) (a : PyArg) : Except String SymSt :=
  match a.annot with
  | some ty =>
    match handle_annotated_variable st a.arg ty with
    | .error m => .error m
    | .ok st1 => .ok (record_arg_sym st1 (scoped_sym st1.scope a.arg))
  | none =>
    .ok (record_arg_sym (add_symbol_to_scope st (scoped_sym st.scope a.arg))
      (scoped_sym st.scope a.arg))

/-- Visit all parameters in order. -/
def visit_args (st : SymSt) : List PyArg → Except String SymSt
  | [] => .ok st
  | a :: rest =>
    match visit_arg st a with
    | .error m => .error m
    | .ok st1 => visit_args st1 rest

mutual

/-- SymbolPass statement dispatch: `visit_AnnAssign` resolves only the
annotation (the value expression is not visited, as in the source),
`visit_FunctionDef` (symbol_pass.py lines 195-208) registers the function
with `func:<ret>` or the deferred `func`, then enters the scope, visits
parameters and body, and exits.  Entering a scope while one is active is
an error (spec section 4.1: scopes are non-reentrant).  Expression
statements have no `SymbolPass` handler; the inherited generic visit
records nothing for the expression kinds of this sublanguage. -/
def visit_Stmt (st : SymSt) : PyStmt → Except String SymSt
  | .assign targets value => visit_Assign st value targets
  | .annAssign target annot _ => handle_annotated_variable st target annot
  | .ret v => visit_Return st v
  | .globalDecl names => .ok (visit_Global st names)
  | .exprStmt _ => .ok st
  | .functionDef name args body returns =>
    let registered : Except String SymSt :=
      match returns with
      | some r => add_scoped_symbol_type st name ("func:" ++ r)
      | none => add_scoped_symbol_type st name "func"
    match registered with
    | .error m => .error m
    | .ok st1 =>
      if st1.scope ≠ "" then .error "Nested function scopes are not supported"
      else
        match visit_args { st1 with scope := name } args with
        | .error m => .error m
        | .ok st2 =>
          match visit_Stmts st2 body with
          | .error m => .error m
          | .ok st3 => .ok { st3 with scope := "" }

/-- Visit a statement list in order, aborting on the first error. -/
def visit_Stmts (st : SymSt) : List PyStmt → Except String SymSt
  | [] => .ok st
  | s :: rest =>
    match visit_Stmt st s with
    | .error m => .error m
    | .ok st1 => visit_Stmts st1 rest

end

/-- The empty symbol table `SymbolPass.__init__` starts from. -/
def emptyTable : SymTable := { symbols := [], types := [], argSyms := [] }

/-- SymbolPass.resolve: visit the module tree from the global scope and
return the populated table (SymbolPass.__init__ + visit). -/
def runResolve (body : List PyStmt) : Except String SymTable :=
  match visit_Stmts { tbl := emptyTable, scope := "" } body with
  | .error m => .error m
  | .ok st => .ok st.tbl

/-! The generation pass (generate_pass.py).  `GeneratePass` state carries the
resolved table, the scope tracker, the indent level, the pending line
buffer `out_string`, the flushed output `sink` (everything written to the
output file so far), and the local-context flags.  A statement visitor
returns the state paired with `none` on success or `some message` when the
Python code would raise; the state is carried in the error case too, since
a raised exception leaves the already-written output and the (unmutated)
symbol table behind. -/

def INDENT_STEP : Int := 4

/-- generate_pass.py lines 32-38: the primitive type lookup. -/
def python_type_to_c_type (t : String) : Option String :=
  dictGet [("int", "int"), ("float", "double"), ("str", "string"),
           ("bool", "bool"), ("void", "void")] t

/-- generate_pass.py lines 13-24 via `binop_to_string` (lines 76-79): the
operator spelling table, applied to the operator's class. -/
def binop_to_string : BinKind → String
  | .add => "+"
  | .sub => "-"
  | .mult => "*"
  | .div => "/"

/-- generate_pass.py lines 43-51. -/
def MODULE_HEADING : String :=
  "/* Generated by PyToC Translator */\n\n#pragma GCC diagnostic ignored \"-Wdeprecated\"\n#include <ArduinoSTL.h>\n#include <string>\n\nusing namespace std;\n\n"

structure GenSt where
  syms : SymTable
  scope : String
  indent_level : Int
  out_string : String
  sink : String
  headings : Bool
  current_target : Option String
  num_arguments : Nat
  during_assign : Bool
deriving DecidableEq

/-- Generator result: final state plus `some message` when aborted. -/
abbrev GOut := GenSt × Option String

/-- Sequence a generator step after a possibly-aborted one. -/
def gthen (r : GOut) (f : GenSt → GOut) : GOut :=
  match r with
  | (st, none) => f st
  | (st, some e) => (st, some e)

/-- GeneratePass.indented (generate_pass.py lines 81-82):
`" " * self.indent_level + s`. -/
def indented (lvl : Int) (s : String) : String :=
  String.mk (List.replicate lvl.toNat ' ') ++ s

/-- GeneratePass.output (generate_pass.py lines 84-98): append to the line
buffer, indenting at line starts (re-splitting multi-line fragments so
each sub-line is indented and right-stripped), and flush the buffer to
the sink once it ends in a newline. -/
def output (st : GenSt) (s : String) (indent : Bool) : GenSt :=
  let st1 :=
    if indent ∧ (st.out_string = "" ∨ lastCharQ st.out_string = some '\n') then
      if hasChar '\n' (rstripNL s) then
        let lines := (splitLines s).map (fun x => rstripWS (indented st.indent_level x))
        let line := String.intercalate "\n" lines
        let line := if s ≠ "" ∧ lastCharQ s = some '\n' then line ++ "\n" else line
        { st with out_string := st.out_string ++ line }
      else { st with out_string := st.out_string ++ indented st.indent_level s }
    else { st with out_string := st.out_string ++ s }
  if st1.out_string ≠ "" ∧ lastCharQ st1.out_string = some '\n' then
    { st1 with sink := st1.sink ++ st1.out_string, out_string := "" }
  else st1

/-- GeneratePass.indent (generate_pass.py lines 100-101). -/
def indent (st : GenSt) : GenSt :=
  { st with indent_level := st.indent_level + INDENT_STEP }

/-- GeneratePass.outdent (generate_pass.py lines 103-105). -/
def outdent (st : GenSt) : GenSt :=
  if INDENT_STEP ≤ st.indent_level then
    { st with indent_level := st.indent_level - INDENT_STEP }
  else st

/-- GeneratePass.emit_list_decl (generate_pass.py lines 107-111): emit
`<elemtype> <symbol>[<size>];` from the split descriptor parts.  Note the
element type is `parts[2]` verbatim, not mapped through
`python_type_to_c_type`. -/
def emit_list_decl (st : GenSt) (parts : List String) (symbol : String) : GOut :=
  if parts.length = 3 then
    let elemType := parts.getD 2 ""
    let listSize := parts.getD 1 ""
    (output st (elemType ++ " " ++ symbol ++ "[" ++ listSize ++ "];\n") true, none)
  else (st, some "AssertionError")

/-- GeneratePass.emit_advanced_decl (generate_pass.py lines 113-122). -/
def emit_advanced_decl (st : GenSt) (advType symbol : String) : GOut :=
  if strContains ":" advType then
    let parts := splitColon advType
    if parts.headD "" = "list" then emit_list_decl st parts symbol
    else (st, some ("Unknown advanced type description " ++ advType))
  else (st, some "AssertionError")

/-- Loop body of `emit_scope_local_decls` over the sorted local symbols. -/
def decl_loop (st : GenSt) : List String → GOut
  | [] => (st, none)
  | name :: rest =>
    let localName := unscoped_sym name
    match find_type st.syms.types name with
    | .error m => (st, some m)
    | .ok localType =>
      if hasChar ':' localType then
        gthen (emit_advanced_decl st localType localName) (fun st2 => decl_loop st2 rest)
      else
        match python_type_to_c_type localType with
        | none => (st, some "KeyError")
        | some cType =>
          decl_loop (output st (cType ++ " " ++ localName ++ ";\n") true) rest

/-- GeneratePass.emit_scope_local_decls (generate_pass.py lines 124-140):
emit one declaration per local symbol of the current scope, in sorted
order, with an optional heading comment inside function scopes. -/
def emit_scope_local_decls (st : GenSt) : GOut :=
  let localSyms := find_local_syms_noargs st.syms st.scope
  let st :=
    if 0 < localSyms.length ∧ st.scope ≠ "" ∧ st.headings then
      output st "/* Local Variable Declarations */\n" true
    else st
  gthen (decl_loop st (pySorted localSyms)) (fun st2 =>
    if 0 < localSyms.length then (output st2 "\n" false, none) else (st2, none))

/-- Value returned by an expression visitor: most visitors return strings,
but `visit_Constant` returns the raw constant for non-string,
non-boolean values (generate_pass.py line 316), so the result is
heterogeneous exactly as in Python. -/
inductive PyVal
  | vs (s : String)
  | vi (n : Int)
  | vf (repr : String)
deriving DecidableEq

/-- Python `str(...)` of an expression-visitor result (applied by f-string
interpolation and `str(ret)` at the use sites). -/
def pyValStr : PyVal → String
  | .vs s => s
  | .vi n => toString n
  | .vf r => r

/-- GeneratePass.visit_Constant (generate_pass.py lines 305-316).  The
escaped copy computed when the string holds a quote is discarded by the
source (the `ret` local is never used), so the raw value is rendered.
Python's `isinstance(node.value, str)` is checked before `bool`, and
`str(True).lower()` is "true". -/
def visit_Constant (st : GenSt) : PyConst → PyVal
  | .str s =>
    if st.during_assign then .vs ("string(\"" ++ s ++ "\")")
    else .vs ("\"" ++ s ++ "\"")
  | .boolean b => .vs (if b then "true" else "false")
  | .int n => .vi n
  | .float r => .vf r

mutual

/-- GeneratePass expression dispatch: visit_Constant, visit_Name
(generate_pass.py lines 333-334), visit_UnaryOp (lines 350-356; note a
unary plus returns the operand's result unchanged), visit_BinOp (lines
344-348) and visit_List/visit_Tuple (lines 318-331). -/
def visit_ExprG (st : GenSt) : PyExpr → PyVal
  | .constant v => visit_Constant st v
  | .name id => .vs id
  | .unaryOp op e =>
    let inner := visit_ExprG st e
    match op with
    | .uSub => .vs ("-" ++ pyValStr inner)
    | .uNot => .vs ("!" ++ pyValStr inner)
    | .uAdd => inner
  | .binOp l op r =>
    .vs ("(" ++ pyValStr (visit_ExprG st l) ++ " " ++ binop_to_string op ++ " " ++
      pyValStr (visit_ExprG st r) ++ ")")
  | .listLit elts => .vs ("[" ++ String.intercalate ", " (list_render st elts) ++ "]")
  | .tupleLit elts => .vs ("[" ++ String.intercalate ", " (list_render st elts) ++ "]")

/-- The comma-joined renderings of the elements of a list/tuple literal. -/
def list_render (st : GenSt) : List PyExpr → List String
  | [] => []
  | e :: rest => pyValStr (visit_ExprG st e) :: list_render st rest

end

/-- Python `isinstance(value, str)` on an expression-visitor result. -/
def isStrVal : PyVal → Bool
  | .vs _ => true
  | _ => false

/-- GeneratePass.visit_Expr (generate_pass.py lines 339-342) together with
`generic_visit` (lines 415-448) specialised to `ast.Expr` nodes, whose one
AST field is the value expression: when no assignment target is active and
the value is a constant, the rendered text is sliced with `ret[1:-1]` (a
`TypeError` for the non-string results of `visit_Constant`) and emitted as
a block comment; an empty accumulated text makes `generic_visit` return
`None`, so `visit_Expr` then appends the `";"` terminator. -/
def visit_ExprStmt (st : GenSt) (e : PyExpr) : GOut :=
  let maybeDocstring := st.current_target.isNone
  let isConst : Bool := match e with | .constant _ => true | _ => false
  let ret := visit_ExprG st e
  if maybeDocstring ∧ isConst then
    match ret with
    | .vs v =>
      let s := slice1m1 v
      if s = "" then (output st ";\n" false, none)
      else (output st ("/* " ++ s ++ " */\n") true, none)
    | _ => (st, some "TypeError")
  else
    let s := pyValStr ret
    if s = "" then (output st ";\n" false, none)
    else (output (output st s true) ";\n" false, none)

/-- The per-target type check of GeneratePass.visit_Assign (generate_pass.py
lines 280-283): each target's recorded type must equal the first
target's (a bare `assert`). -/
def assign_targets_check (st : GenSt) (tgtType : String) : List String → Option String
  | [] => none
  | t :: rest =>
    match find_type st.syms.types (scoped_sym st.scope t) with
    | .error m => some m
    | .ok ty => if ty = tgtType then assign_targets_check st tgtType rest else some "AssertionError"

/-- GeneratePass.visit_Assign (generate_pass.py lines 274-294).  The
`current_target` set before evaluating the value is the loop variable
after the target loop, i.e. the last target.  For a `str`-typed target
whose rendered value is not a string the source raises. -/
def visit_AssignG (st : GenSt) (targets : List String) (value : PyExpr) : GOut :=
  let st := { st with during_assign := true }
  match targets with
  | [] => (st, some "IndexError")
  | t0 :: _ =>
    match find_type st.syms.types (scoped_sym st.scope t0) with
    | .error m => (st, some m)
    | .ok tgtType =>
      match assign_targets_check st tgtType targets with
      | some m => (st, some m)
      | none =>
        let tgtS := String.intercalate " = " targets
        let st := { st with current_target := some (targets.getLastD "") }
        let v := visit_ExprG st value
        let st := { st with current_target := none }
        if tgtType = "str" ∧ !(isStrVal v) then
          (st, some ("Assignment to " ++ tgtS ++ " of a value which is not a string"))
        else
          ({ output st (tgtS ++ " = " ++ pyValStr v ++ ";\n") true with during_assign := false },
            none)

/-- GeneratePass.visit_AnnAssign (generate_pass.py lines 255-272).  The
recorded type must equal the annotation (a bare `assert`); in the
`str`-mismatch branch the source references the undefined local `tgt_s`,
raising `NameError`. -/
def visit_AnnAssignG (st : GenSt) (target annot : String) (value : PyExpr) : GOut :=
  let st := { st with during_assign := true }
  match find_type st.syms.types (scoped_sym st.scope target) with
  | .error m => (st, some m)
  | .ok knownType =>
    if knownType ≠ annot then (st, some "AssertionError")
    else
      let st := { st with current_target := some target }
      let v := visit_ExprG st value
      let st := { st with current_target := none }
      if annot = "str" ∧ !(isStrVal v) then (st, some "NameError")
      else
        ({ output st (target ++ " = " ++ pyValStr v ++ ";\n") true with during_assign := false },
          none)

/-- GeneratePass.visit_Return (generate_pass.py lines 296-303). -/
def visit_ReturnG (st : GenSt) (value : Option PyExpr) : GOut :=
  match value with
  | none => (output st "return;\n" true, none)
  | some e =>
    (output st ("return (" ++ pyValStr (visit_ExprG st e) ++ ");\n") true, none)

/-- GeneratePass.visit_arg (generate_pass.py lines 243-253): build the
parameter fragment `<c_type> <name>`, comma-prefixed after the first, and
advance the argument counter. -/
def visit_argG (st : GenSt) (a : PyArg) : GenSt × Except String String :=
  let s := if 0 < st.num_arguments then ", " else ""
  let st := { st with num_arguments := st.num_arguments + 1 }
  match find_type st.syms.types (scoped_sym st.scope a.arg) with
  | .error m => (st, .error m)
  | .ok ty =>
    match python_type_to_c_type ty with
    | none => (st, .error "KeyError")
    | some cTy => (st, .ok (s ++ cTy ++ " " ++ a.arg))

/-- The accumulation `generic_visit` performs over the `arguments` node's
children: concatenate each parameter fragment. -/
def args_loop (st : GenSt) (acc : String) : List PyArg → GenSt × Except String String
  | [] => (st, .ok acc)
  | a :: rest =>
    match visit_argG st a with
    | (st2, .error m) => (st2, .error m)
    | (st2, .ok s) => args_loop st2 (acc ++ s) rest

/-- GeneratePass.visit_arguments (generate_pass.py lines 234-241): reset the
argument counter, emit `"("`, the accumulated parameter text (written by
`generic_visit`'s trailing `output` when non-empty), `") {"`, the scope's
local declarations and the optional `Main Code` heading. -/
def visit_argumentsG (st : GenSt) (args : List PyArg) : GOut :=
  let st := { st with num_arguments := 0 }
  let st := output st "(" false
  match args_loop st "" args with
  | (st2, .error m) => (st2, some m)
  | (st2, .ok s) =>
    let st3 := if s = "" then st2 else output st2 s true
    let st4 := output st3 ") \x7b\n" false
    gthen (emit_scope_local_decls st4) (fun st5 =>
      if st5.headings then (output st5 "/* Main Code */\n" true, none)
      else (st5, none))

mutual

/-- GeneratePass statement dispatch: visit_Global (generate_pass.py lines
166-167), visit_Assign, visit_AnnAssign, visit_Return, visit_Expr, and
visit_FunctionDef (lines 196-214).  A function definition emits
`\n<c_ret_type> <name>`, enters the scope, indents, visits the
parameters and body (the source's "ugly hack" that hides `node.returns`
during `generic_visit` only prevents the annotation node from being
re-visited, which this embedding never does), outdents, exits the scope
and emits the closing brace.  Entering a scope while one is active is an
error (spec section 4.1: scopes are non-reentrant). -/
def visit_StmtG (st : GenSt) : PyStmt → GOut
  | .globalDecl _ => (st, none)
  | .exprStmt e => visit_ExprStmt st e
  | .assign targets value => visit_AssignG st targets value
  | .annAssign target annot value => visit_AnnAssignG st target annot value
  | .ret v => visit_ReturnG st v
  | .functionDef name args body _returns =>
    match find_ret_type st.syms.types (scoped_sym st.scope name) with
    | .error m => (st, some m)
    | .ok retType =>
      match python_type_to_c_type retType with
      | none => (st, some "KeyError")
      | some cRetType =>
        let st := output st ("\n" ++ cRetType ++ " " ++ name) false
        if st.scope ≠ "" then (st, some "Nested function scopes are not supported")
        else
          let st := indent { st with scope := name }
          gthen (visit_argumentsG st args) (fun st2 =>
            gthen (visit_StmtsG st2 body) (fun st3 =>
              (output { outdent st3 with scope := "" } "\x7d\n\n\n" false, none)))

/-- Visit a statement list in order, aborting on the first raise. -/
def visit_StmtsG (st : GenSt) : List PyStmt → GOut
  | [] => (st, none)
  | s :: rest => gthen (visit_StmtG st s) (fun st1 => visit_StmtsG st1 rest)

end

/-- GeneratePass.visit_Module (generate_pass.py lines 169-173), which is
the whole pass (GeneratePass.__init__ visits the tree): optional
boilerplate heading, module-scope declarations, then the body. -/
def visit_ModuleG (st : GenSt) (body : List PyStmt) : GOut :=
  let st := if st.headings then output st (MODULE_HEADING ++ "\n") false else st
  gthen (emit_scope_local_decls st) (fun st2 => visit_StmtsG st2 body)

/-- The initial generator state (GeneratePass.__init__, generate_pass.py
lines 54-69). -/
def genInit (tbl : SymTable) (headings : Bool) : GenSt :=
  { syms := tbl, scope := "", indent_level := 0, out_string := "", sink := "",
    headings := headings, current_target := none, num_arguments := 0,
    during_assign := false }

/-- Run the generation pass on a resolved table and a module body. -/
def runGenerate (tbl : SymTable) (body : List PyStmt) (headings : Bool) : GOut :=
  visit_ModuleG (genInit tbl headings) body

/-- A sequence of `indent`/`outdent` calls on the generator state. -/
inductive IndentOp
  | ind
  | outd
deriving DecidableEq

/-- Apply a sequence of `indent`/`outdent` calls. -/
def applyIndentOps (st : GenSt) : List IndentOp → GenSt
  | [] => st
  | .ind :: rest => applyIndentOps (indent st) rest
  | .outd :: rest => applyIndentOps (outdent st) rest

/-- The text `output` appends to the pending line buffer, as a pure
function of the indent level and the buffer (used to factor `output` for
the determinism proof). -/
def outputText (lvl : Int) (buf s : String) (b : Bool) : String :=
  if b ∧ (buf = "" ∨ lastCharQ buf = some '\n') then
    if hasChar '\n' (rstripNL s) then
      buf ++
        (let lines := (splitLines s).map (fun x => rstripWS (indented lvl x))
         let line := String.intercalate "\n" lines
         if s ≠ "" ∧ lastCharQ s = some '\n' then line ++ "\n" else line)
    else buf ++ indented lvl s
  else buf ++ s

/-- Agreement of two generator states on everything scope-local
declaration emission reads or writes: the scope, the emission fields and
the type table.  The symbol sets may differ (e.g. in iteration order). -/
def EmitAgree (s t : GenSt) : Prop :=
  s.scope = t.scope ∧ s.indent_level = t.indent_level ∧
  s.out_string = t.out_string ∧ s.sink = t.sink ∧
  s.headings = t.headings ∧ s.syms.types = t.syms.types

/-! Lemmas about the string-primitive models. -/

theorem chStarts_append_self (p x : List Char) : chStarts p (p ++ x) = true := by
  induction p with
  | nil => rfl
  | cons a as ih => simp [chStarts, ih]

theorem chOccurs_of_starts (p s : List Char) (h : chStarts p s = true) :
    chOccurs p s = true := by
  cases s with
  | nil => exact h
  | cons c cs => simp [chOccurs, h]

theorem chOccurs_sandwich (p g x : List Char) : chOccurs p (g ++ (p ++ x)) = true := by
  induction g with
  | nil =>
    rw [List.nil_append]
    exact chOccurs_of_starts _ _ (chStarts_append_self p x)
  | cons c cs ih =>
    rw [List.cons_append]
    simp only [chOccurs]
    split
    · rfl
    · exact ih

theorem strContains_sandwich (p a b : String) : strContains p (a ++ p ++ b) = true := by
  unfold strContains
  have : (a ++ p ++ b).data = a.data ++ (p.data ++ b.data) := by
    simp [String.data_append]
  rw [this]
  exact chOccurs_sandwich _ _ _

theorem chStarts_false_of_head_free (h : Char) (t : List Char) (c : Char)
    (cs : List Char) (hch : c ≠ h) : chStarts (h :: t) (c :: cs) = false := by
  simp only [chStarts]
  rw [if_neg (fun he => hch he.symm)]

theorem chOccurs_false_of_head_free (h : Char) (t s : List Char)
    (hfree : chHasChar h s = false) : chOccurs (h :: t) s = false := by
  induction s with
  | nil => rfl
  | cons c cs ih =>
    simp only [chHasChar] at hfree
    by_cases hch : c = h
    · rw [if_pos hch] at hfree; exact absurd hfree (by simp)
    · rw [if_neg hch] at hfree
      simp only [chOccurs]
      rw [chStarts_false_of_head_free h t c cs hch]
      simpa using ih hfree

theorem chHasChar_append (c : Char) (l1 l2 : List Char) :
    chHasChar c (l1 ++ l2) = (chHasChar c l1 || chHasChar c l2) := by
  induction l1 with
  | nil => simp [chHasChar]
  | cons a as ih =>
    simp only [List.cons_append, chHasChar]
    split <;> simp [ih]

theorem hasChar_append (c : Char) (a b : String) :
    hasChar c (a ++ b) = (hasChar c a || hasChar c b) := by
  unfold hasChar
  rw [String.data_append, chHasChar_append]

theorem strContains2_false_of_colon_free (s : String)
    (hfree : hasChar ':' s = false) : strContains "::" s = false := by
  unfold strContains
  exact chOccurs_false_of_head_free ':' [':'] s.data hfree

theorem chSplit1_ne_nil (h : Char) (s : List Char) : chSplit1 h s ≠ [] := by
  cases s with
  | nil => simp [chSplit1]
  | cons c cs =>
    simp only [chSplit1]
    split
    · simp
    · split <;> simp

theorem chSplit1_no_occur (h : Char) (s : List Char)
    (hfree : chHasChar h s = false) : chSplit1 h s = [s] := by
  induction s with
  | nil => rfl
  | cons c cs ih =>
    simp only [chHasChar] at hfree
    by_cases hch : c = h
    · rw [if_pos hch] at hfree; exact absurd hfree (by simp)
    · rw [if_neg hch] at hfree
      simp only [chSplit1, if_neg hch, ih hfree]

theorem chSplit1_sandwich (h : Char) (g x : List Char)
    (hfree : chHasChar h g = false) :
    chSplit1 h (g ++ h :: x) = g :: chSplit1 h x := by
  induction g with
  | nil => simp [chSplit1]
  | cons c cs ih =>
    simp only [chHasChar] at hfree
    by_cases hch : c = h
    · rw [if_pos hch] at hfree; exact absurd hfree (by simp)
    · rw [if_neg hch] at hfree
      rw [List.cons_append]
      simp only [chSplit1, if_neg hch]
      simp only [List.append_eq] at ih
      rw [ih hfree]

theorem chSplit2_ne_nil (a b : Char) (s : List Char) : chSplit2 a b s ≠ [] := by
  match s with
  | [] => simp [chSplit2]
  | [c] => simp [chSplit2]
  | c :: d :: rest =>
    simp only [chSplit2]
    split
    · simp
    · split <;> simp

theorem chSplit2_no_occur (a b : Char) (s : List Char)
    (hfree : chHasChar a s = false) : chSplit2 a b s = [s] := by
  match s with
  | [] => rfl
  | [c] => rfl
  | c :: d :: rest =>
    simp only [chHasChar] at hfree
    by_cases hca : c = a
    · rw [if_pos hca] at hfree; exact absurd hfree (by simp)
    · rw [if_neg hca] at hfree
      have ih := chSplit2_no_occur a b (d :: rest) hfree
      simp only [chSplit2]
      rw [if_neg (by intro hc; exact hca hc.1), ih]

theorem chSplit2_cons2 (a b : Char) (x : List Char) :
    chSplit2 a b (a :: b :: x) = [] :: chSplit2 a b x := by
  simp [chSplit2]

theorem chSplit2_sandwich (a b : Char) (g x : List Char)
    (hfree : chHasChar a g = false) :
    chSplit2 a b (g ++ a :: b :: x) = g :: chSplit2 a b x := by
  match g with
  | [] =>
    rw [List.nil_append]
    exact chSplit2_cons2 a b x
  | c :: cs =>
    simp only [chHasChar] at hfree
    by_cases hca : c = a
    · rw [if_pos hca] at hfree; exact absurd hfree (by simp)
    · rw [if_neg hca] at hfree
      have ih := chSplit2_sandwich a b cs x hfree
      rw [List.cons_append]
      obtain ⟨p, ps, hcs⟩ : ∃ p ps, cs ++ a :: b :: x = p :: ps := by
        cases hh : cs ++ a :: b :: x with
        | nil => exact absurd hh (by simp)
        | cons p ps => exact ⟨p, ps, rfl⟩
      rw [hcs]
      simp only [chSplit2]
      rw [if_neg (fun hc => hca hc.1)]
      rw [← hcs, ih]

theorem strMk_data (s : String) : String.mk s.data = s := rfl

theorem twoColon_data : ("::" : String).data = [':', ':'] := rfl

theorem strAppend_left_cancel {a b c : String} (h : a ++ b = a ++ c) : b = c := by
  apply String.ext
  have h2 := congrArg String.data h
  simp only [String.data_append] at h2
  exact List.append_cancel_left h2

theorem data_ne_nil_of_ne_empty (s : String) (h : s ≠ "") : s.data ≠ [] := by
  intro hd
  exact h (String.ext hd)

theorem scoped_sym_global (x : String) : scoped_sym "" x = x := by
  simp [scoped_sym]

theorem scoped_sym_fn (f x : String) (hf : f ≠ "") (hx : hasChar ':' x = false) :
    scoped_sym f x = f ++ "::" ++ x := by
  unfold scoped_sym
  rw [if_neg hf, strContains2_false_of_colon_free x hx]
  simp

theorem unscoped_sym_colon_free (s : String) (h : hasChar ':' s = false) :
    unscoped_sym s = s := by
  unfold unscoped_sym
  rw [strContains2_false_of_colon_free s h]
  simp

theorem splitColon2_qual (f x : String) (hf : hasChar ':' f = false)
    (hx : hasChar ':' x = false) : splitColon2 (f ++ "::" ++ x) = [f, x] := by
  unfold splitColon2
  have hdata : (f ++ "::" ++ x).data = f.data ++ ':' :: ':' :: x.data := by
    simp [String.data_append, twoColon_data]
  rw [hdata, chSplit2_sandwich ':' ':' f.data x.data hf,
    chSplit2_no_occur ':' ':' x.data hx]
  simp [strMk_data]

theorem unscoped_sym_qual (f x : String) (hf : hasChar ':' f = false)
    (hx : hasChar ':' x = false) : unscoped_sym (f ++ "::" ++ x) = x := by
  unfold unscoped_sym
  rw [strContains_sandwich "::" f x]
  rw [splitColon2_qual f x hf hx]
  simp

theorem colon_data : (":" : String).data = [':'] := rfl

theorem splitColon_sandwich (g x : String) (hg : hasChar ':' g = false) :
    splitColon (g ++ ":" ++ x) = g :: splitColon x := by
  unfold splitColon
  have hdata : (g ++ ":" ++ x).data = g.data ++ ':' :: x.data := by
    simp [String.data_append, colon_data]
  rw [hdata, chSplit1_sandwich ':' g.data x.data hg]
  simp [strMk_data]

theorem splitColon_no_colon (x : String) (hx : hasChar ':' x = false) :
    splitColon x = [x] := by
  unfold splitColon
  rw [chSplit1_no_occur ':' x.data hx]
  simp [strMk_data]

theorem chLe_total (a : List Char) : ∀ b, chLe a b = true ∨ chLe b a = true := by
  induction a with
  | nil => intro b; left; rfl
  | cons x xs ih =>
    intro b
    cases b with
    | nil => right; rfl
    | cons y ys =>
      by_cases hxy : x = y
      · subst hxy
        simp only [chLe, if_pos rfl]
        exact ih ys
      · simp only [chLe, if_neg hxy, if_neg (fun h : y = x => hxy h.symm),
          decide_eq_true_eq]
        rcases lt_trichotomy x y with h | h | h
        · left; exact h
        · exact absurd h hxy
        · right; exact h

theorem chLe_trans : ∀ a b c : List Char,
    chLe a b = true → chLe b c = true → chLe a c = true
  | [], _, _, _, _ => rfl
  | _ :: _, [], _, hab, _ => by simp [chLe] at hab
  | _ :: _, _ :: _, [], _, hbc => by simp [chLe] at hbc
  | x :: xs, y :: ys, z :: zs, hab, hbc => by
    by_cases hxy : x = y
    · subst hxy
      simp only [chLe, if_pos rfl] at hab
      by_cases hyz : x = z
      · subst hyz
        simp only [chLe, if_pos rfl] at hbc ⊢
        exact chLe_trans xs ys zs hab hbc
      · simp only [chLe, if_neg hyz, decide_eq_true_eq] at hbc ⊢
        exact hbc
    · simp only [chLe, if_neg hxy, decide_eq_true_eq] at hab
      by_cases hyz : y = z
      · subst hyz
        simp only [chLe, if_neg hxy, decide_eq_true_eq]
        exact hab
      · simp only [chLe, if_neg hyz, decide_eq_true_eq] at hbc
        have hxz : x < z := lt_trans hab hbc
        simp only [chLe, if_neg (ne_of_lt hxz), decide_eq_true_eq]
        exact hxz

theorem chLe_antisymm : ∀ a b : List Char,
    chLe a b = true → chLe b a = true → a = b
  | [], [], _, _ => rfl
  | [], _ :: _, _, hba => by simp [chLe] at hba
  | _ :: _, [], hab, _ => by simp [chLe] at hab
  | x :: xs, y :: ys, hab, hba => by
    by_cases hxy : x = y
    · subst hxy
      simp only [chLe, if_pos rfl] at hab hba
      rw [chLe_antisymm xs ys hab hba]
    · simp only [chLe, if_neg hxy, if_neg (fun h : y = x => hxy h.symm),
        decide_eq_true_eq] at hab hba
      exact absurd hba (not_lt_of_gt hab)

instance : IsTotal String pyStrLe := ⟨fun a b => chLe_total a.data b.data⟩

instance : IsTrans String pyStrLe :=
  ⟨fun a b c hab hbc => chLe_trans a.data b.data c.data hab hbc⟩

instance : IsAntisymm String pyStrLe :=
  ⟨fun a b hab hba => String.ext (chLe_antisymm a.data b.data hab hba)⟩

/-- Sorting is insensitive to the iteration order of the underlying set:
two permuted symbol lists sort to the same list. -/
theorem pySorted_eq_of_perm {l1 l2 : List String} (h : l1.Perm l2) :
    pySorted l1 = pySorted l2 :=
  List.eq_of_perm_of_sorted
    ((List.perm_insertionSort pyStrLe l1).trans
      (h.trans (List.perm_insertionSort pyStrLe l2).symm))
    (List.sorted_insertionSort pyStrLe l1)
    (List.sorted_insertionSort pyStrLe l2)

theorem strAppend_assoc (a b c : String) : a ++ b ++ c = a ++ (b ++ c) := by
  apply String.ext
  simp [String.data_append]

theorem all_same_type_ok_true_iff (st : SymSt) (t0 : String) :
    ∀ l : List PyExpr, (all_same_type st t0 l = .ok true ↔
      ∀ e ∈ l, get_type_from_value st e = .ok t0)
  | [] => by simp [all_same_type]
  | e :: rest => by
    simp only [all_same_type]
    constructor
    · intro h
      cases hg : get_type_from_value st e with
      | error m => rw [hg] at h; dsimp only at h; exact absurd h (by simp)
      | ok t =>
        rw [hg] at h; dsimp only at h
        by_cases ht : t = t0
        · rw [if_pos ht] at h
          intro x hx
          rcases List.mem_cons.mp hx with rfl | hx'
          · rw [hg, ht]
          · exact (all_same_type_ok_true_iff st t0 rest).mp h x hx'
        · rw [if_neg ht] at h; exact absurd h (by simp)
    · intro h
      have he := h e (by simp)
      rw [he]; dsimp only
      rw [if_pos rfl]
      exact (all_same_type_ok_true_iff st t0 rest).mpr
        (fun x hx => h x (by simp [hx]))

/-- Claim C2: for every list or tuple literal with at least one element,
type inference succeeds iff every element infers to the same type, and on
success produces the descriptor `list:<N>:<elemtype>` with `N` the element
count; a zero-element literal always fails. -/
theorem spec_C2 (st : SymSt) (elts : List PyExpr) :
    (get_type_from_value st (.listLit ([] : List PyExpr))
        = .error "We are unable to handle empty lists, yet"
      ∧ get_type_from_value st (.tupleLit ([] : List PyExpr))
        = .error "We are unable to handle empty lists, yet")
    ∧ get_type_from_value st (.tupleLit elts) = get_type_from_value st (.listLit elts)
    ∧ (elts ≠ [] → ∀ r,
        (get_type_from_value st (.listLit elts) = .ok r ↔
          ∃ t, (∀ e ∈ elts, get_type_from_value st e = .ok t)
            ∧ r = "list:" ++ toString elts.length ++ ":" ++ t)) := by
  refine ⟨⟨?_, ?_⟩, ?_, ?_⟩
  · simp [get_type_from_value, list_case]
  · simp [get_type_from_value, list_case]
  · simp [get_type_from_value]
  · intro hne r
    obtain ⟨e0, rest, rfl⟩ : ∃ e0 rest, elts = e0 :: rest := by
      cases elts with
      | nil => exact absurd rfl hne
      | cons a l => exact ⟨a, l, rfl⟩
    constructor
    · intro h
      simp only [get_type_from_value, list_case] at h
      cases hg : get_type_from_value st e0 with
      | error m => simp only [hg] at h; simp at h
      | ok t0 =>
        simp only [hg] at h
        cases hall : all_same_type st t0 (e0 :: rest) with
        | error m => simp only [hall] at h; simp at h
        | ok bb =>
          simp only [hall] at h
          cases bb
          · simp at h
          · simp only [Except.ok.injEq] at h
            exact ⟨t0, (all_same_type_ok_true_iff st t0 _).mp hall, h.symm⟩
    · rintro ⟨t, hall, rfl⟩
      have hg : get_type_from_value st e0 = .ok t := hall e0 (by simp)
      have hTrue : all_same_type st t (e0 :: rest) = .ok true :=
        (all_same_type_ok_true_iff st t _).mpr hall
      simp only [get_type_from_value, list_case, hg, hTrue]

/-- Witness for C2 at a concrete homogeneous two-element literal. -/
theorem spec_C2_witness :
    get_type_from_value ⟨emptyTable, ""⟩
      (.listLit [.constant (.int 1), .constant (.int 2)]) = .ok "list:2:int" := by
  refine ((spec_C2 ⟨emptyTable, ""⟩ [.constant (.int 1), .constant (.int 2)]).2.2
    (by simp) "list:2:int").mpr ⟨"int", ?_, by decide⟩
  intro e he
  rcases List.mem_cons.mp he with rfl | he'
  · simp [get_type_from_value]
  · rcases List.mem_cons.mp he' with rfl | he''
    · simp [get_type_from_value]
    · exact absurd he'' (by simp)

/-- Claim C9: boolean literals infer to the descriptor `int` (Python's
integer `isinstance` test subsumes booleans), and no literal constant ever
infers to the `bool` descriptor. -/
theorem spec_C9 (st : SymSt) :
    (∀ b, get_type_from_value st (.constant (.boolean b)) = .ok "int")
    ∧ ∀ c, get_type_from_value st (.constant c) ≠ .ok "bool" := by
  constructor
  · intro b; simp [get_type_from_value]
  · intro c
    cases c <;> simp [get_type_from_value]

/-- Claim C1 (amended): once a type descriptor `t` is recorded for the
scoped name an unannotated assignment target resolves to, a later
unannotated assignment to it whose value infers to `t'` leaves the table
unchanged when `t' = t` and fails when `t' ≠ t` — but with a bare
assertion failure whose message references neither type, not with a
type-conflict error naming both. -/
theorem spec_C1 (st : SymSt) (x : String) (v : PyExpr) (t t' : String)
    (hinf : get_type_from_value st v = .ok t')
    (hrec : dictGet st.tbl.types
        (if is_known_global st x then x else scoped_sym st.scope x) = some t) :
    visit_Assign st v [x] = if t = t' then .ok st else .error "AssertionError" := by
  have hhas : dictHas st.tbl.types
      (if is_known_global st x then x else scoped_sym st.scope x) = true := by
    unfold dictHas
    rw [hrec]
    rfl
  simp only [visit_Assign, hinf, hhas, if_true, hrec]

/-- Witness for C1: a same-type reassignment at global scope leaves the
table unchanged. -/
theorem spec_C1_witness :
    visit_Assign
      ⟨⟨[("", ["x"])], [("x", "int")], []⟩, ""⟩
      (.constant (.int 2)) ["x"] =
      .ok ⟨⟨[("", ["x"])], [("x", "int")], []⟩, ""⟩ := by
  have h := spec_C1 ⟨⟨[("", ["x"])], [("x", "int")], []⟩, ""⟩ "x"
    (.constant (.int 2)) "int" "int" (by simp [get_type_from_value]) (by decide)
  simpa using h

/-- Counterexample for C1 as stated: `x = 1` followed by `x = 1.0` at
module scope fails resolution, but with a bare `AssertionError` whose
text references neither `int` nor `float`. -/
theorem spec_C1_counterexample :
    runResolve [PyStmt.assign ["x"] (.constant (.int 1)),
      PyStmt.assign ["x"] (.constant (.float "1.0"))] = .error "AssertionError"
    ∧ strContains "int" "AssertionError" = false
    ∧ strContains "float" "AssertionError" = false := by
  refine ⟨?_, by decide, by decide⟩
  simp [runResolve, visit_Stmts, visit_Stmt, visit_Assign, get_type_from_value,
    is_known_global, scoped_sym, strListHas, scopeGet, dictHas, dictGet,
    add_scoped_symbol_type, add_symbol_to_scope, setAdd, scopeSet, emptyTable]

/-- Claim C3 (amended): a `return <expr>` in a function whose descriptor
is still the deferred `func` fixes the descriptor to `func:<type>` (a bare
`return` to `func:void`); with a descriptor already `func:<T>`, a return
inferring a different type fails with a mismatch error — which names both
types when the recorded return type `T` is a primitive (colon-free)
descriptor, while for a composite `T` the message only names `T`'s first
colon-separated component; a function left at descriptor `func` is given
return type `void` by `find_ret_type`. -/
theorem spec_C3 :
    (∀ (st : SymSt) (e : PyExpr) (T : String),
      dictGet st.tbl.types st.scope = some "func" →
      get_type_from_value st e = .ok T →
      visit_Return st (some e) = .ok { st with tbl := { st.tbl with
        types := dictSet st.tbl.types st.scope ("func:" ++ T) } })
    ∧ (∀ st : SymSt,
      dictGet st.tbl.types st.scope = some "func" →
      visit_Return st none = .ok { st with tbl := { st.tbl with
        types := dictSet st.tbl.types st.scope ("func:" ++ "void") } })
    ∧ (∀ (st : SymSt) (e : PyExpr) (T T0 : String),
      dictGet st.tbl.types st.scope = some ("func:" ++ T0) →
      get_type_from_value st e = .ok T →
      hasChar ':' T0 = false → T ≠ T0 →
      ∃ msg, visit_Return st (some e) = .error msg
        ∧ strContains T0 msg = true ∧ strContains T msg = true)
    ∧ (∀ (types : List (String × String)) (fn : String),
      dictGet types fn = some "func" → find_ret_type types fn = .ok "void") := by
  have hfix : ∀ (st : SymSt) (T : String),
      dictGet st.tbl.types st.scope = some "func" →
      set_func_ret_type st st.scope T = .ok { st with tbl := { st.tbl with
        types := dictSet st.tbl.types st.scope ("func:" ++ T) } } := by
    intro st T hrec
    simp [set_func_ret_type, hrec]
  refine ⟨?_, ?_, ?_, ?_⟩
  · intro st e T hrec hinf
    simp only [visit_Return, hinf, find_type, hrec, if_true]
    exact hfix st T hrec
  · intro st hrec
    simp only [visit_Return, find_type, hrec, if_true]
    exact hfix st "void" hrec
  · intro st e T T0 hrec hinf hT0free hne
    have hfneq : ("func:" ++ T0) ≠ "func" := by
      intro hcontra
      have h2 := congrArg String.data hcontra
      rw [String.data_append] at h2
      simp at h2
    have hfuncT : ("func:" ++ T) ≠ ("func:" ++ T0) := by
      intro hcontra
      exact hne (strAppend_left_cancel hcontra)
    have hsplit : splitColon ("func:" ++ T0) = ["func", T0] := by
      rw [show ("func:" ++ T0 : String) = "func" ++ ":" ++ T0 from by
        apply String.ext
        simp [String.data_append]]
      rw [splitColon_sandwich "func" T0 (by decide), splitColon_no_colon T0 hT0free]
    simp only [visit_Return, hinf, find_type, hrec]
    rw [if_neg hfneq, if_pos hfuncT]
    simp only [hsplit]
    refine ⟨"Function should return '" ++ T0 ++
      "' but this return statement is of type '" ++ T ++ "'",
      by simp [List.getD], ?_, ?_⟩
    · rw [show ("Function should return '" ++ T0 ++
          "' but this return statement is of type '" ++ T ++ "'" : String) =
          "Function should return '" ++ T0 ++
            ("' but this return statement is of type '" ++ T ++ "'") from by
        apply String.ext
        simp [String.data_append]]
      exact strContains_sandwich T0 "Function should return '"
        ("' but this return statement is of type '" ++ T ++ "'")
    · exact strContains_sandwich T
        ("Function should return '" ++ T0 ++ "' but this return statement is of type '")
        "'"
  · intro types fn hrec
    simp [find_ret_type, find_type, hrec]

/-- Witness for C3: fixation of a deferred descriptor and a mismatch error
naming both primitive types, at concrete inputs. -/
theorem spec_C3_witness :
    visit_Return ⟨⟨[], [("f", "func")], []⟩, "f"⟩ (some (.constant (.int 1)))
      = .ok ⟨⟨[], [("f", "func:int")], []⟩, "f"⟩
    ∧ (∃ msg, visit_Return ⟨⟨[], [("f", "func:int")], []⟩, "f"⟩
        (some (.constant (.float "1.0"))) = .error msg
      ∧ strContains "int" msg = true ∧ strContains "float" msg = true)
    ∧ find_ret_type [("f", "func")] "f" = .ok "void" := by
  refine ⟨?_, ?_, ?_⟩
  · have h := spec_C3.1 ⟨⟨[], [("f", "func")], []⟩, "f"⟩ (.constant (.int 1)) "int"
      (by decide) (by simp [get_type_from_value])
    rw [h]
    rfl
  · exact spec_C3.2.2.1 ⟨⟨[], [("f", "func:int")], []⟩, "f"⟩
      (.constant (.float "1.0")) "float" "int" (by decide)
      (by simp [get_type_from_value]) (by decide) (by decide)
  · exact spec_C3.2.2.2 [("f", "func")] "f" (by decide)

/-- Counterexample for C3 as stated: when the recorded return type is the
composite `list:1:int`, the mismatch message names only `list`, not the
recorded type, so the error does not reference both types. -/
theorem spec_C3_counterexample :
    runResolve [PyStmt.functionDef "f" []
        [PyStmt.ret (some (.listLit [.constant (.int 1)])),
         PyStmt.ret (some (.constant (.int 2)))] none]
      = .error "Function should return 'list' but this return statement is of type 'int'"
    ∧ strContains "list:1:int"
        "Function should return 'list' but this return statement is of type 'int'"
      = false := by
  refine ⟨?_, by decide⟩
  simp [runResolve, visit_Stmts, visit_Stmt, visit_Return, visit_args,
    get_type_from_value, list_case, all_same_type, find_type, set_func_ret_type,
    add_scoped_symbol_type, add_symbol_to_scope, scoped_sym, dictHas, dictGet,
    dictSet, emptyTable, unscoped_sym, strContains, chOccurs, chStarts,
    splitColon, chSplit1, splitColon2, chSplit2, setAdd, scopeGet, scopeSet,
    show toString (1 : Nat) = "1" from rfl]

/-- Claim C8: a bare-name lookup from the global scope or from a different
function scope never observes a symbol recorded under `f::x` — it is
resolved from the bare global entry or fails — while a reference inside
`f` resolves first against `f::x` and falls back to the bare global
name. -/
theorem spec_C8 (types : List (String × String)) (f x d : String)
    (hf : f ≠ "") (hfc : hasChar ':' f = false) (hxc : hasChar ':' x = false)
    (hd : dictGet types (scoped_sym f x) = some d) :
    ((∀ t, find_type types (scoped_sym "" x) = .ok t → dictGet types x = some t)
      ∧ (dictGet types x = none → ∃ m, find_type types (scoped_sym "" x) = .error m))
    ∧ (∀ g, g ≠ "" → hasChar ':' g = false →
        dictGet types (scoped_sym g x) = none →
        ((∀ t, find_type types (scoped_sym g x) = .ok t → dictGet types x = some t)
          ∧ (dictGet types x = none → ∃ m, find_type types (scoped_sym g x) = .error m)))
    ∧ find_type types (scoped_sym f x) = .ok d
    ∧ (∀ y t, hasChar ':' y = false →
        dictGet types (scoped_sym f y) = none → dictGet types y = some t →
        find_type types (scoped_sym f y) = .ok t) := by
  refine ⟨⟨?_, ?_⟩, ?_, ?_, ?_⟩
  · intro t hok
    rw [scoped_sym_global] at hok
    cases hx : dictGet types x with
    | some u =>
      simp only [find_type, hx] at hok
      exact congrArg some (by simpa using hok)
    | none =>
      simp only [find_type, hx, unscoped_sym_colon_free x hxc] at hok
      exact absurd hok (by simp)
  · intro hx
    rw [scoped_sym_global]
    simp only [find_type, hx, unscoped_sym_colon_free x hxc]
    exact ⟨_, rfl⟩
  · intro g hg hgc hnone
    rw [scoped_sym_fn g x hg hxc] at hnone ⊢
    constructor
    · intro t hok
      simp only [find_type, hnone, unscoped_sym_qual g x hgc hxc] at hok
      cases hx : dictGet types x with
      | some u =>
        rw [hx] at hok
        simp only [] at hok
        exact congrArg some (by simpa using hok)
      | none => rw [hx] at hok; exact absurd hok (by simp)
    · intro hx
      simp only [find_type, hnone, unscoped_sym_qual g x hgc hxc, hx]
      exact ⟨_, rfl⟩
  · simp only [find_type, hd]
  · intro y t hyc hnone hglob
    rw [scoped_sym_fn f y hf hyc] at hnone ⊢
    simp only [find_type, hnone, unscoped_sym_qual f y hfc hyc, hglob]

/-- Witness for C8: with `f::a` recorded and a global `b`, lookups of `a`
from the global scope and from scope `g` fail, while lookups inside `f`
find it; the global `b` is found from everywhere. -/
theorem spec_C8_witness :
    find_type [("f::a", "int"), ("b", "float")] (scoped_sym "f" "a") = .ok "int"
    ∧ (∃ m, find_type [("f::a", "int"), ("b", "float")] (scoped_sym "" "a")
        = .error m)
    ∧ (∃ m, find_type [("f::a", "int"), ("b", "float")] (scoped_sym "g" "a")
        = .error m)
    ∧ find_type [("f::a", "int"), ("b", "float")] (scoped_sym "f" "b") = .ok "float" := by
  have h := spec_C8 [("f::a", "int"), ("b", "float")] "f" "a" "int"
    (by decide) (by decide) (by decide) (by decide)
  refine ⟨h.2.2.1, h.1.2 (by decide), (h.2.1 "g" (by decide) (by decide)
    (by decide)).2 (by decide), h.2.2.2 "b" "float" (by decide) (by decide) (by decide)⟩

theorem chHasChar_eq_false_iff (c : Char) (l : List Char) :
    chHasChar c l = false ↔ ∀ a ∈ l, a ≠ c := by
  induction l with
  | nil => simp [chHasChar]
  | cons a as ih =>
    simp only [chHasChar, List.mem_cons]
    by_cases hac : a = c
    · rw [if_pos hac]
      simp [hac]
    · rw [if_neg hac]
      constructor
      · intro h x hx
        rcases hx with rfl | hx'
        · exact hac
        · exact (ih.mp h) x hx'
      · intro h
        exact ih.mpr (fun x hx => h x (Or.inr hx))

theorem strEmpty_append (s : String) : "" ++ s = s := by
  apply String.ext
  simp [String.data_append]

theorem lastCharQ_append (a b : String) (hb : b.data ≠ []) :
    lastCharQ (a ++ b) = lastCharQ b := by
  unfold lastCharQ
  rw [String.data_append, List.reverse_append]
  cases hrb : b.data.reverse with
  | nil => exact absurd (by simpa using congrArg List.reverse hrb) hb
  | cons c cs => simp [hrb]

theorem rstripNL_no_nl (s : String) (h : hasChar '\n' s = false) :
    rstripNL s = s := by
  unfold rstripNL chRStrip
  unfold hasChar at h
  cases hrev : s.data.reverse with
  | nil =>
    have hsd : s.data = [] := by simpa using congrArg List.reverse hrev
    apply String.ext
    simp [hsd]
  | cons c cs =>
    have hc : c ∈ s.data := by
      rw [← List.reverse_reverse s.data, hrev]
      simp
    have hcne : c ≠ '\n' := (chHasChar_eq_false_iff '\n' s.data).mp h c hc
    apply String.ext
    rw [List.dropWhile_cons,
      if_neg (by
        simp only [chHasChar]
        rw [if_neg (fun he : '\n' = c => hcne he.symm)]
        simp)]
    rw [← hrev, List.reverse_reverse]

theorem rstripNL_append_nl (s : String) :
    rstripNL (s ++ "\n") = rstripNL s := by
  unfold rstripNL chRStrip
  have hdat : (s ++ "\n").data = s.data ++ ['\n'] := by
    rw [String.data_append]
  rw [hdat, List.reverse_append]
  simp [List.dropWhile_cons, chHasChar]

/-- Evaluation of `output` at a line start for a single-line fragment
ending in a newline: the indented line is flushed to the sink. -/
theorem output_line (st : GenSt) (body : String)
    (hbuf : st.out_string = "") (hnl : hasChar '\n' body = false) :
    output st (body ++ "\n") true =
      { st with
        sink := st.sink ++ indented st.indent_level (body ++ "\n"),
        out_string := "" } := by
  have hsdat : (body ++ "\n").data = body.data ++ ['\n'] := by
    rw [String.data_append]
  have hinner : hasChar '\n' (rstripNL (body ++ "\n")) = false := by
    rw [rstripNL_append_nl, rstripNL_no_nl body hnl]
    exact hnl
  have hlast : lastCharQ (body ++ "\n") = some '\n' := by
    rw [lastCharQ_append body "\n" (by decide)]
    rfl
  have hne : indented st.indent_level (body ++ "\n") ≠ "" := by
    intro hcontra
    have h2 := congrArg String.data hcontra
    unfold indented at h2
    rw [String.data_append, hsdat] at h2
    simp at h2
  have hlast2 : lastCharQ (indented st.indent_level (body ++ "\n")) = some '\n' := by
    unfold indented
    rw [lastCharQ_append _ _ (by rw [hsdat]; simp)]
    exact hlast
  unfold output
  rw [hbuf]
  simp only [eq_self_iff_true, true_and, true_or, or_true, if_true]
  rw [hinner]
  simp only [Bool.false_eq_true, if_false]
  rw [strEmpty_append]
  rw [if_pos ⟨hne, hlast2⟩]

/-- Claim C10: the generator's indentation level starts at 0, `indent`
adds exactly one step, `outdent` subtracts a step only when the level is
at least one step, and so any sequence of the two keeps the level a
non-negative multiple of `INDENT_STEP`. -/
theorem spec_C10 :
    (∀ (tbl : SymTable) (headings : Bool), (genInit tbl headings).indent_level = 0)
    ∧ (∀ st : GenSt, (indent st).indent_level = st.indent_level + INDENT_STEP)
    ∧ (∀ st : GenSt, (outdent st).indent_level =
        if INDENT_STEP ≤ st.indent_level then st.indent_level - INDENT_STEP
        else st.indent_level)
    ∧ (∀ (tbl : SymTable) (headings : Bool) (ops : List IndentOp),
        0 ≤ (applyIndentOps (genInit tbl headings) ops).indent_level
        ∧ INDENT_STEP ∣ (applyIndentOps (genInit tbl headings) ops).indent_level) := by
  have houtd : ∀ st : GenSt, (outdent st).indent_level =
      if INDENT_STEP ≤ st.indent_level then st.indent_level - INDENT_STEP
      else st.indent_level := by
    intro st
    unfold outdent
    split <;> rfl
  refine ⟨fun _ _ => rfl, fun _ => rfl, houtd, ?_⟩
  intro tbl headings ops
  have key : ∀ (ops : List IndentOp) (st : GenSt),
      0 ≤ st.indent_level → INDENT_STEP ∣ st.indent_level →
      0 ≤ (applyIndentOps st ops).indent_level
        ∧ INDENT_STEP ∣ (applyIndentOps st ops).indent_level := by
    intro ops
    induction ops with
    | nil => intro st h1 h2; exact ⟨h1, h2⟩
    | cons op rest ih =>
      intro st h1 h2
      simp only [INDENT_STEP] at h1 h2 ⊢
      cases op with
      | ind =>
        apply ih
        · simp only [indent, INDENT_STEP]
          omega
        · simp only [indent, INDENT_STEP]
          omega
      | outd =>
        apply ih
        · rw [houtd st]
          simp only [INDENT_STEP]
          split <;> omega
        · rw [houtd st]
          simp only [INDENT_STEP]
          split <;> omega
  exact key ops (genInit tbl headings) (by simp [genInit]) (by simp [genInit])

/-- Counterexample for C4: the `list:3:float` descriptor is emitted with
element type `float` taken verbatim from the descriptor, not `double`
from the primitive lookup the claim requires. -/
theorem spec_C4_counterexample :
    (emit_advanced_decl (genInit emptyTable false) "list:3:float" "x").1.sink
      = "float x[3];\n"
    ∧ (emit_advanced_decl (genInit emptyTable false) "list:3:float" "x").1.sink
      ≠ "double x[3];\n"
    ∧ (emit_advanced_decl (genInit emptyTable false) "list:3:float" "x").2 = none
    ∧ python_type_to_c_type "float" = some "double" := by
  refine ⟨?_, ?_, ?_, ?_⟩ <;> first | rfl | decide

/-- Claim C4 (amended): a symbol whose descriptor is
`list:<size>:<elemtype>` is declared as a fixed-size array of size
`<size>` whose element type is `<elemtype>` written verbatim (which
coincides with the mapped type for `int`, `bool` and `void` but is not
mapped through `python_type_to_c_type`, so `list:3:float` declares
element type `float`, not `double`). -/
theorem spec_C4 (st : GenSt) (sz et symbol : String)
    (hszc : hasChar ':' sz = false) (hetc : hasChar ':' et = false)
    (hsznl : hasChar '\n' sz = false) (hetnl : hasChar '\n' et = false)
    (hsymnl : hasChar '\n' symbol = false)
    (hbuf : st.out_string = "") :
    emit_advanced_decl st ("list:" ++ sz ++ ":" ++ et) symbol
      = ({ st with
          sink := st.sink ++ indented st.indent_level
            (et ++ " " ++ symbol ++ "[" ++ sz ++ "];\n"),
          out_string := "" }, none) := by
  have hshape : ("list:" ++ sz ++ ":" ++ et : String)
      = "list" ++ ":" ++ (sz ++ (":" ++ et)) := by
    apply String.ext
    simp [String.data_append]
  have hshape2 : (sz ++ (":" ++ et) : String) = sz ++ ":" ++ et := by
    apply String.ext
    simp [String.data_append]
  have hsplit : splitColon ("list:" ++ sz ++ ":" ++ et) = ["list", sz, et] := by
    rw [hshape, splitColon_sandwich "list" _ (by decide), hshape2,
      splitColon_sandwich sz et hszc, splitColon_no_colon et hetc]
  have hocc : strContains ":" ("list:" ++ sz ++ ":" ++ et) = true := by
    rw [hshape]
    exact strContains_sandwich ":" "list" (sz ++ (":" ++ et))
  have hbody : (et ++ " " ++ symbol ++ "[" ++ sz ++ "];\n" : String)
      = (et ++ " " ++ symbol ++ "[" ++ sz ++ "];") ++ "\n" := by
    apply String.ext
    simp [String.data_append]
  have hbodynl : hasChar '\n' (et ++ " " ++ symbol ++ "[" ++ sz ++ "];") = false := by
    simp only [hasChar_append, hetnl, hsymnl, hsznl]
    decide
  unfold emit_advanced_decl
  rw [hocc]
  simp only [if_true, hsplit]
  unfold emit_list_decl
  simp only [List.length_cons, List.length_nil, List.getD]
  norm_num
  rw [hbody, output_line st _ hbuf hbodynl, ← hbody]

/-- Witness for C4 at the concrete `list:3:float` descriptor. -/
theorem spec_C4_witness :
    emit_advanced_decl (genInit emptyTable false) ("list:" ++ "3" ++ ":" ++ "float") "x"
      = ({ genInit emptyTable false with sink := "float x[3];\n" }, none) := by
  have h := spec_C4 (genInit emptyTable false) "3" "float" "x"
    (by decide) (by decide) (by decide) (by decide) (by decide) rfl
  rw [h]
  decide

/-! Frame lemmas: no generator operation writes the `syms` field. -/

theorem output_syms (st : GenSt) (s : String) (b : Bool) :
    (output st s b).syms = st.syms := by
  unfold output
  repeat' split
  all_goals first
    | rfl
    | (dsimp only; split <;> rfl)

theorem indent_syms (st : GenSt) : (indent st).syms = st.syms := rfl

theorem outdent_syms (st : GenSt) : (outdent st).syms = st.syms := by
  unfold outdent
  split <;> rfl

theorem gthen_syms {r : GOut} {f : GenSt → GOut} {a : SymTable}
    (hr : (r.1).syms = a) (hf : ∀ st, ((f st).1).syms = st.syms) :
    ((gthen r f).1).syms = a := by
  obtain ⟨st, e⟩ := r
  cases e with
  | none =>
    dsimp [gthen]
    rw [hf st]
    exact hr
  | some m => exact hr

theorem emit_list_decl_syms (st : GenSt) (parts : List String) (symbol : String) :
    ((emit_list_decl st parts symbol).1).syms = st.syms := by
  unfold emit_list_decl
  split
  · exact output_syms st _ true
  · rfl

theorem emit_advanced_decl_syms (st : GenSt) (advType symbol : String) :
    ((emit_advanced_decl st advType symbol).1).syms = st.syms := by
  unfold emit_advanced_decl
  dsimp only
  repeat' split
  · exact emit_list_decl_syms st _ symbol
  · rfl
  · rfl

theorem decl_loop_syms (st : GenSt) (names : List String) :
    ((decl_loop st names).1).syms = st.syms := by
  induction names generalizing st with
  | nil => rfl
  | cons n rest ih =>
    cases hft : find_type st.syms.types n with
    | error m => simp only [decl_loop, hft]
    | ok localType =>
      simp only [decl_loop, hft]
      by_cases hhc : hasChar ':' localType = true
      · rw [if_pos hhc]
        exact gthen_syms (emit_advanced_decl_syms st localType (unscoped_sym n))
          (fun st2 => ih st2)
      · rw [if_neg hhc]
        cases hmap : python_type_to_c_type localType with
        | none => simp only [hmap]
        | some cType =>
          simp only [hmap]
          rw [ih (output st (cType ++ " " ++ unscoped_sym n ++ ";\n") true)]
          exact output_syms st _ true

theorem emit_scope_local_decls_syms (st : GenSt) :
    ((emit_scope_local_decls st).1).syms = st.syms := by
  unfold emit_scope_local_decls
  dsimp only
  split
  · refine gthen_syms ?_ (fun st2 => by split <;> simp [output_syms])
    rw [decl_loop_syms, output_syms]
  · refine gthen_syms ?_ (fun st2 => by split <;> simp [output_syms])
    rw [decl_loop_syms]

theorem visit_ExprStmt_syms (st : GenSt) (e : PyExpr) :
    ((visit_ExprStmt st e).1).syms = st.syms := by
  cases hv : visit_ExprG st e with
  | vs v =>
    unfold visit_ExprStmt
    dsimp only
    rw [hv]
    dsimp only
    split_ifs <;> simp [output_syms]
  | vi n =>
    unfold visit_ExprStmt
    dsimp only
    rw [hv]
    dsimp only
    split_ifs <;> simp [output_syms]
  | vf r =>
    unfold visit_ExprStmt
    dsimp only
    rw [hv]
    dsimp only
    split_ifs <;> simp [output_syms]

theorem visit_AssignG_syms (st : GenSt) (targets : List String) (value : PyExpr) :
    ((visit_AssignG st targets value).1).syms = st.syms := by
  unfold visit_AssignG
  dsimp only
  cases targets with
  | nil => rfl
  | cons t0 rest =>
    cases hft : find_type st.syms.types (scoped_sym st.scope t0) with
    | error m => simp [hft]
    | ok tgtType =>
      simp only [hft]
      cases hchk : assign_targets_check { st with during_assign := true }
          tgtType (t0 :: rest) with
      | some m => simp [hchk]
      | none =>
        simp only [hchk]
        split_ifs <;> simp [output_syms]

theorem visit_AnnAssignG_syms (st : GenSt) (target annot : String) (value : PyExpr) :
    ((visit_AnnAssignG st target annot value).1).syms = st.syms := by
  unfold visit_AnnAssignG
  dsimp only
  cases hft : find_type st.syms.types (scoped_sym st.scope target) with
  | error m => simp [hft]
  | ok knownType =>
    simp only [hft]
    split_ifs <;> simp [output_syms]

theorem visit_ReturnG_syms (st : GenSt) (v : Option PyExpr) :
    ((visit_ReturnG st v).1).syms = st.syms := by
  unfold visit_ReturnG
  split
  all_goals simp [output_syms]

theorem visit_argG_syms (st : GenSt) (a : PyArg) :
    ((visit_argG st a).1).syms = st.syms := by
  unfold visit_argG
  dsimp only
  cases find_type st.syms.types (scoped_sym st.scope a.arg) with
  | error m => rfl
  | ok ty =>
    dsimp only
    cases python_type_to_c_type ty with
    | none => rfl
    | some cTy => rfl

theorem args_loop_syms (st : GenSt) (acc : String) (args : List PyArg) :
    ((args_loop st acc args).1).syms = st.syms := by
  induction args generalizing st acc with
  | nil => rfl
  | cons a rest ih =>
    simp only [args_loop]
    cases hv : visit_argG st a with
    | mk st2 r =>
      have h2 : st2.syms = st.syms := by
        have := visit_argG_syms st a
        rw [hv] at this
        exact this
      cases r with
      | error m => exact h2
      | ok s2 => rw [ih st2 (acc ++ s2)]; exact h2

theorem visit_argumentsG_syms (st : GenSt) (args : List PyArg) :
    ((visit_argumentsG st args).1).syms = st.syms := by
  unfold visit_argumentsG
  dsimp only
  cases hl : args_loop (output { st with num_arguments := 0 } "(" false) "" args with
  | mk st2 r =>
    have h2 : st2.syms = st.syms := by
      have h3 := args_loop_syms (output { st with num_arguments := 0 } "(" false) "" args
      rw [hl] at h3
      dsimp only at h3
      rw [h3, output_syms]
    cases r with
    | error m => exact h2
    | ok s =>
      dsimp only
      refine gthen_syms ?_ (fun st5 => by split <;> simp [output_syms])
      rw [emit_scope_local_decls_syms, output_syms]
      split
      · exact h2
      · rw [output_syms]; exact h2

mutual

theorem visit_StmtG_syms (st : GenSt) (s : PyStmt) :
    ((visit_StmtG st s).1).syms = st.syms := by
  cases s with
  | globalDecl names => rfl
  | exprStmt e =>
    rw [show visit_StmtG st (.exprStmt e) = visit_ExprStmt st e from by
      simp [visit_StmtG]]
    exact visit_ExprStmt_syms st e
  | assign targets value =>
    rw [show visit_StmtG st (.assign targets value) = visit_AssignG st targets value
      from by simp [visit_StmtG]]
    exact visit_AssignG_syms st targets value
  | annAssign t a v =>
    rw [show visit_StmtG st (.annAssign t a v) = visit_AnnAssignG st t a v
      from by simp [visit_StmtG]]
    exact visit_AnnAssignG_syms st t a v
  | ret v =>
    rw [show visit_StmtG st (.ret v) = visit_ReturnG st v from by simp [visit_StmtG]]
    exact visit_ReturnG_syms st v
  | functionDef name args body returns =>
    simp only [visit_StmtG]
    cases hrt : find_ret_type st.syms.types (scoped_sym st.scope name) with
    | error m => rfl
    | ok retType =>
      dsimp only
      cases hc : python_type_to_c_type retType with
      | none => rfl
      | some cRetType =>
        dsimp only
        split
        · exact output_syms st _ false
        · refine gthen_syms ?_ (fun st2 => ?_)
          · rw [visit_argumentsG_syms]
            exact output_syms st _ false
          · refine gthen_syms (visit_StmtsG_syms st2 body) (fun st3 => ?_)
            rw [output_syms]
            exact outdent_syms st3

theorem visit_StmtsG_syms (st : GenSt) (l : List PyStmt) :
    ((visit_StmtsG st l).1).syms = st.syms := by
  cases l with
  | nil => rfl
  | cons s rest =>
    simp only [visit_StmtsG]
    exact gthen_syms (visit_StmtG_syms st s) (fun st1 => visit_StmtsG_syms st1 rest)

end

/-- Claim C6: the generation pass never mutates the symbol table — after a
complete run (or an aborted one; the state is carried on errors too), the
table is the one resolution produced. -/
theorem spec_C6 (tbl : SymTable) (body : List PyStmt) (headings : Bool) :
    ((runGenerate tbl body headings).1).syms = tbl := by
  unfold runGenerate visit_ModuleG
  split
  · refine gthen_syms ?_ (fun st2 => visit_StmtsG_syms st2 body)
    rw [emit_scope_local_decls_syms, output_syms]
    rfl
  · exact gthen_syms (emit_scope_local_decls_syms (genInit tbl headings))
      (fun st2 => visit_StmtsG_syms st2 body)

theorem output_eq (st : GenSt) (s : String) (b : Bool) :
    output st s b =
      if outputText st.indent_level st.out_string s b ≠ "" ∧
          lastCharQ (outputText st.indent_level st.out_string s b) = some '\n' then
        { st with
          sink := st.sink ++ outputText st.indent_level st.out_string s b,
          out_string := "" }
      else { st with out_string := outputText st.indent_level st.out_string s b } := by
  unfold output outputText
  repeat' split
  all_goals simp_all

theorem output_agree {s t : GenSt} (h : EmitAgree s t) (x : String) (b : Bool) :
    EmitAgree (output s x b) (output t x b) := by
  obtain ⟨h1, h2, h3, h4, h5, h6⟩ := h
  rw [output_eq, output_eq, h2, h3]
  by_cases hc : (outputText t.indent_level t.out_string x b ≠ "" ∧
      lastCharQ (outputText t.indent_level t.out_string x b) = some '\n')
  · rw [if_pos hc, if_pos hc]
    exact ⟨h1, rfl, rfl, by rw [h4], h5, h6⟩
  · rw [if_neg hc, if_neg hc]
    exact ⟨h1, rfl, rfl, h4, h5, h6⟩

theorem gthen_agree {r1 r2 : GOut} {f1 f2 : GenSt → GOut}
    (hr : EmitAgree r1.1 r2.1 ∧ r1.2 = r2.2)
    (hf : ∀ s t, EmitAgree s t → EmitAgree (f1 s).1 (f2 t).1 ∧ (f1 s).2 = (f2 t).2) :
    EmitAgree (gthen r1 f1).1 (gthen r2 f2).1 ∧ (gthen r1 f1).2 = (gthen r2 f2).2 := by
  obtain ⟨s1, e1⟩ := r1
  obtain ⟨s2, e2⟩ := r2
  obtain ⟨hagree, herr⟩ := hr
  dsimp only at hagree herr
  subst herr
  cases e1 with
  | none => exact hf s1 s2 hagree
  | some m => exact ⟨hagree, rfl⟩

theorem emit_list_decl_agree {s t : GenSt} (h : EmitAgree s t)
    (parts : List String) (symbol : String) :
    EmitAgree (emit_list_decl s parts symbol).1 (emit_list_decl t parts symbol).1
    ∧ (emit_list_decl s parts symbol).2 = (emit_list_decl t parts symbol).2 := by
  unfold emit_list_decl
  split
  · exact ⟨output_agree h _ true, rfl⟩
  · exact ⟨h, rfl⟩

theorem emit_advanced_decl_agree {s t : GenSt} (h : EmitAgree s t)
    (advType symbol : String) :
    EmitAgree (emit_advanced_decl s advType symbol).1
      (emit_advanced_decl t advType symbol).1
    ∧ (emit_advanced_decl s advType symbol).2 = (emit_advanced_decl t advType symbol).2 := by
  unfold emit_advanced_decl
  dsimp only
  split
  · split
    · exact emit_list_decl_agree h _ symbol
    · exact ⟨h, rfl⟩
  · exact ⟨h, rfl⟩

theorem decl_loop_agree : ∀ (names : List String) {s t : GenSt}, EmitAgree s t →
    EmitAgree (decl_loop s names).1 (decl_loop t names).1
    ∧ (decl_loop s names).2 = (decl_loop t names).2
  | [], s, t, h => ⟨h, rfl⟩
  | n :: rest, s, t, h => by
    have htypes : s.syms.types = t.syms.types := h.2.2.2.2.2
    simp only [decl_loop, htypes]
    cases hft : find_type t.syms.types n with
    | error m => exact ⟨h, rfl⟩
    | ok localType =>
      dsimp only
      split
      · exact gthen_agree (emit_advanced_decl_agree h localType (unscoped_sym n))
          (fun s2 t2 h2 => decl_loop_agree rest h2)
      · cases python_type_to_c_type localType with
        | none => exact ⟨h, rfl⟩
        | some cType =>
          exact decl_loop_agree rest (output_agree h _ true)

/-- Claim C5: generation is deterministic — running the pass twice on the
same inputs is byte-identical — and scope-local declaration emission is
ordered by the sorted canonical names, so its output is invariant under
the iteration order of the symbol set: states that agree on the emission
fields and the type table and whose local-symbol lists are permutations
of one another emit identical text. -/
theorem spec_C5 :
    (∀ (tbl : SymTable) (body : List PyStmt) (headings : Bool),
      runGenerate tbl body headings = runGenerate tbl body headings)
    ∧ (∀ l : List String, List.Sorted pyStrLe (pySorted l) ∧ (pySorted l).Perm l)
    ∧ ∀ s t : GenSt, EmitAgree s t →
        (find_local_syms_noargs s.syms s.scope).Perm
          (find_local_syms_noargs t.syms t.scope) →
        EmitAgree (emit_scope_local_decls s).1 (emit_scope_local_decls t).1
        ∧ (emit_scope_local_decls s).2 = (emit_scope_local_decls t).2 := by
  refine ⟨fun _ _ _ => rfl,
    fun l => ⟨List.sorted_insertionSort pyStrLe l, List.perm_insertionSort pyStrLe l⟩,
    ?_⟩
  intro s t h hperm
  obtain ⟨h1, h2, h3, h4, h5, h6⟩ := h
  have hlen : (find_local_syms_noargs s.syms s.scope).length
      = (find_local_syms_noargs t.syms t.scope).length := hperm.length_eq
  have hsort : pySorted (find_local_syms_noargs s.syms s.scope)
      = pySorted (find_local_syms_noargs t.syms t.scope) := pySorted_eq_of_perm hperm
  unfold emit_scope_local_decls
  dsimp only
  rw [hlen, hsort, h1, h5]
  have hstep : EmitAgree
      (if 0 < (find_local_syms_noargs t.syms t.scope).length ∧ t.scope ≠ ""
          ∧ t.headings then
        output s "/* Local Variable Declarations */\n" true
      else s)
      (if 0 < (find_local_syms_noargs t.syms t.scope).length ∧ t.scope ≠ ""
          ∧ t.headings then
        output t "/* Local Variable Declarations */\n" true
      else t) := by
    split
    · exact output_agree ⟨h1, h2, h3, h4, h5, h6⟩ _ true
    · exact ⟨h1, h2, h3, h4, h5, h6⟩
  refine gthen_agree (decl_loop_agree _ hstep) (fun s2 t2 h2 => ?_)
  split
  · exact ⟨output_agree h2 _ false, rfl⟩
  · exact ⟨h2, rfl⟩

/-- Witness for C5: two symbol tables that record the module-scope symbols
in opposite insertion orders emit identical declaration text. -/
theorem spec_C5_witness :
    (emit_scope_local_decls (genInit
      ⟨[("", ["b", "a"])], [("a", "int"), ("b", "float")], []⟩ true)).1.sink
    = (emit_scope_local_decls (genInit
      ⟨[("", ["a", "b"])], [("a", "int"), ("b", "float")], []⟩ true)).1.sink := by
  have h := spec_C5.2.2
    (genInit ⟨[("", ["b", "a"])], [("a", "int"), ("b", "float")], []⟩ true)
    (genInit ⟨[("", ["a", "b"])], [("a", "int"), ("b", "float")], []⟩ true)
    ⟨rfl, rfl, rfl, rfl, rfl, rfl⟩ (by decide)
  exact h.1.2.2.2.1

theorem slice1m1_quoted (v : String) : slice1m1 ("\"" ++ v ++ "\"") = v := by
  unfold slice1m1
  have hd : ("\"" ++ v ++ "\"").data = '"' :: (v.data ++ ['"']) := by
    simp [String.data_append]
  rw [hd]
  simp [List.dropLast_concat]

/-- Claim C7 (amended): a bare expression statement whose value is a
string constant, visited with no assignment context active, is emitted as
a block comment with no statement terminator — wherever it appears in a
module or function body, not only as the first statement. -/
theorem spec_C7 (st : GenSt) (v : String)
    (htgt : st.current_target = none)
    (hassign : st.during_assign = false)
    (hbuf : st.out_string = "")
    (hnl : hasChar '\n' v = false)
    (hne : v ≠ "") :
    visit_StmtG st (.exprStmt (.constant (.str v)))
      = ({ st with
          sink := st.sink ++ indented st.indent_level ("/* " ++ v ++ " */\n"),
          out_string := "" }, none) := by
  have hcomm : ("/* " ++ v ++ " */\n" : String) = ("/* " ++ v ++ " */") ++ "\n" := by
    apply String.ext
    simp [String.data_append]
  have hcommnl : hasChar '\n' ("/* " ++ v ++ " */") = false := by
    simp only [hasChar_append, hnl]
    decide
  have hvc : visit_ExprG st (.constant (.str v)) = .vs ("\"" ++ v ++ "\"") := by
    simp [visit_ExprG, visit_Constant, hassign]
  rw [show visit_StmtG st (.exprStmt (.constant (.str v)))
      = visit_ExprStmt st (.constant (.str v)) from by simp [visit_StmtG]]
  unfold visit_ExprStmt
  dsimp only
  rw [htgt, hvc]
  dsimp only
  rw [slice1m1_quoted v]
  rw [if_pos ⟨rfl, rfl⟩, if_neg hne]
  rw [hcomm, output_line st _ hbuf hcommnl, ← hcomm]
  rw [htgt]

/-- Witness for C7 at a concrete comment statement. -/
theorem spec_C7_witness :
    visit_StmtG (genInit emptyTable false) (.exprStmt (.constant (.str "note")))
      = ({ genInit emptyTable false with sink := "/* note */\n" }, none) := by
  have h := spec_C7 (genInit emptyTable false) "note" rfl rfl rfl (by decide)
    (by decide)
  rw [h]
  decide

/-- Counterexample for C7 as stated: the comment treatment is not limited
to first statements — in a module whose body is two bare string-constant
expression statements, the second one is also rendered as a block comment
(and no statement terminator is emitted for it). -/
theorem spec_C7_counterexample :
    runGenerate emptyTable
      [PyStmt.exprStmt (.constant (.str "first")),
       PyStmt.exprStmt (.constant (.str "second"))] false
      = ({ genInit emptyTable false with sink := "/* first */\n/* second */\n" },
        none) := by
  decide

end PyDuino
